import Mathlib

/-!
Verification of the async LLM job-queue service (Vercel + Supabase).

This file shallowly embeds the JavaScript source of the service:
`api/process-queue.js` (worker: begin-processing guard, Claude API call
with retry, response normalizer, completion webhook), `api/queue-request.js`
(dispatcher insert), `api/webhook-monitor.js` (reconciliation sweep), and
the status endpoint.

Modelling conventions:
- JavaScript strings are modelled as `List Char` (`JStr`); `s.length` is
  `List.length` and `s.slice(0, n)` is `List.take n`.
- JSON values are a nested inductive `Json`; JavaScript objects are ordered
  association lists (JS objects preserve insertion order and have unique
  keys; the embedding preserves order and manipulates the first occurrence
  of a key, which coincides on unique-key objects).
- JS numbers are modelled as `Rat`.  Cost arithmetic (`toFixed(6)`) is
  modelled as rounding a rational to 6 decimal places; no claim in scope
  depends on float-specific numerics.  The decimal rendering of non-integer
  numbers inside `JSON.stringify` is abstracted by a fixed deterministic
  rendering; `stringify` output is only ever used for its length in the
  `_processingInfo` size metadata.
- Wall-clock reads (`new Date().toISOString()`, `Date.now()`) are explicit
  parameters.
- Database rows are records; a Supabase `update(...).eq('request_id', id)`
  is a record update; concurrency of two trigger invocations is modelled
  as an interleaving of their atomic database reads/writes.
-/

/-- JavaScript strings, as lists of code units. -/
abbrev JStr := List Char

/-- JSON-ish JavaScript values (the shapes flowing through the service). -/
inductive Json where
  | null : Json
  | bool (b : Bool) : Json
  | num (q : Rat) : Json
  | str (s : JStr) : Json
  | arr (xs : List Json) : Json
  | obj (fs : List (JStr × Json)) : Json

mutual
/-- Boolean structural equality on `Json` (used to build decidable equality). -/
def beqJ : Json → Json → Bool
  | .null, .null => true
  | .bool a, .bool b => a == b
  | .num a, .num b => a == b
  | .str a, .str b => a == b
  | .arr a, .arr b => beqJs a b
  | .obj a, .obj b => beqFs a b
  | _, _ => false

def beqJs : List Json → List Json → Bool
  | [], [] => true
  | x :: xs, y :: ys => beqJ x y && beqJs xs ys
  | _, _ => false

def beqFs : List (JStr × Json) → List (JStr × Json) → Bool
  | [], [] => true
  | (k, v) :: fs, (k2, v2) :: gs => k == k2 && beqJ v v2 && beqFs fs gs
  | _, _ => false
end

/-- First-occurrence lookup of a key in an object's field list
(JS property read; keys are unique in real JS objects). -/
def lookupField : List (JStr × Json) → JStr → Option Json
  | [], _ => none
  | (k, v) :: fs, key => if k = key then some v else lookupField fs key

/-- JS property assignment `o[k] = v`: replaces the value of an existing key
in place (preserving field order), else appends the key. -/
def setFieldJs : List (JStr × Json) → JStr → Json → List (JStr × Json)
  | [], k, v => [(k, v)]
  | (k2, v2) :: fs, k, v =>
      if k2 = k then (k, v) :: fs else (k2, v2) :: setFieldJs fs k v

/-- JS truthiness of a value. -/
def jsTruthy : Json → Bool
  | .null => false
  | .bool b => b
  | .num q => !(q == 0)
  | .str s => !s.isEmpty
  | .arr _ => true
  | .obj _ => true

/-- JS property read `j.k` / `j?.[k]` on a value (only objects carry
modelled properties; reads on primitives yield `undefined`). -/
def jsGetProp (j : Json) (k : JStr) : Option Json :=
  match j with
  | .obj fs => lookupField fs k
  | _ => none

/-- JS property write `j.k = v`; silently a no-op on non-objects
(matching sloppy-mode JS property writes on primitives). -/
def jsSetProp (j : Json) (k : JStr) (v : Json) : Json :=
  match j with
  | .obj fs => .obj (setFieldJs fs k v)
  | _ => j

/-- Decimal digit character for `d % 10` (char code 48 + digit). -/
def natDigitChar (d : Nat) : Char := Char.ofNat (48 + d % 10)

/-- Fuel-driven accumulator loop producing decimal digits, most significant
first.  Fuel `n+1` suffices for input `n`. -/
def natToCharsAux : Nat → Nat → JStr → JStr
  | 0, _, acc => acc
  | fuel+1, n, acc =>
      let acc2 := natDigitChar (n % 10) :: acc
      if n < 10 then acc2 else natToCharsAux fuel (n / 10) acc2

/-- Decimal rendering of a natural number (JS `${n}` for integers). -/
def natToChars (n : Nat) : JStr := natToCharsAux (n + 1) n []

/-- Decimal rendering of an integer. -/
def intToChars (i : Int) : JStr :=
  if i < 0 then '-' :: natToChars i.natAbs else natToChars i.natAbs

/-- Fields produced by spreading an array into an object literal:
`{...[a,b]}` yields `{"0": a, "1": b}`. -/
def spreadArrFields (i : Nat) : List Json → List (JStr × Json)
  | [] => []
  | x :: xs => (natToChars i, x) :: spreadArrFields (i + 1) xs

/-- Fields produced by spreading a string: `{..."ab"}` yields
`{"0": "a", "1": "b"}`. -/
def spreadStrFields (i : Nat) : JStr → List (JStr × Json)
  | [] => []
  | c :: cs => (natToChars i, .str [c]) :: spreadStrFields (i + 1) cs

/-- The field list of the JS object-spread `{...j}`: objects keep their
fields, arrays and strings become index-keyed fields, other primitives
spread to nothing. -/
def jsSpreadFields : Json → List (JStr × Json)
  | .obj fs => fs
  | .arr xs => spreadArrFields 0 xs
  | .str s => spreadStrFields 0 s
  | _ => []

/-- The JS object literal `{...j}`. -/
def spreadToObj (j : Json) : Json := .obj (jsSpreadFields j)

/-- The `type` property key. -/
def typeKey : JStr := "type".data

/-- The `text` property key. -/
def textKey : JStr := "text".data

/-- The `thinking` property key. -/
def thinkingKey : JStr := "thinking".data

/-- The `content` property key. -/
def contentKey : JStr := "content".data

/-- The `cited_text` property key. -/
def citedTextKey : JStr := "cited_text".data

/-- The `web_search_result_location` type tag. -/
def wsrlTag : JStr := "web_search_result_location".data

/-- The `usage` property key. -/
def usageKey : JStr := "usage".data

/-- The `cost` property key. -/
def costKey : JStr := "cost".data

/-- The `requestId` property key. -/
def requestIdKey : JStr := "requestId".data

/-- The `completedAt` property key. -/
def completedAtKey : JStr := "completedAt".data

/-- The `_processingInfo` property key. -/
def processingInfoKey : JStr := "_processingInfo".data

/-! ### `capStr` and `capResponseTextFields` (process-queue.js lines 618-660) -/

/-- `capStr(s, limit)`: truncate a string to `limit` code units.
The source returns `s.slice(0, limit)` when `s.length > limit`, else `s`
unchanged; no marker of any kind is appended. -/
def capStr (s : JStr) (limit : Nat) : JStr :=
  if limit < s.length then s.take limit else s

/-- One item of a `content` array inside `capResponseTextFields`:
non-objects pass through (`!item || typeof item !== "object"`); objects
(and arrays, which JS spread converts to index-keyed objects) are copied,
then `text` is capped when `type === "text"` (except `content[0]` in
`jsonContent` mode) and `thinking` is capped when `type === "thinking"`. -/
def capContentItem (jc : Bool) (limit : Nat) (idx : Nat) (item : Json) : Json :=
  match item with
  | .arr _ | .obj _ =>
    let fs := jsSpreadFields item
    let fs1 :=
      match lookupField fs typeKey with
      | some (.str t) =>
        if t = textKey then
          match lookupField fs textKey with
          | some (.str s) =>
              if jc && idx == 0 then fs
              else setFieldJs fs textKey (.str (capStr s limit))
          | _ => fs
        else fs
      | _ => fs
    let fs2 :=
      match lookupField fs1 typeKey with
      | some (.str t) =>
        if t = thinkingKey then
          match lookupField fs1 thinkingKey with
          | some (.str s) => setFieldJs fs1 thinkingKey (.str (capStr s limit))
          | _ => fs1
        else fs1
      | _ => fs1
    .obj fs2
  | _ => item

mutual
/-- `capResponseTextFields(resp, {jsonContent, limit})`: recursive traversal
that caps `content[].text` (except `content[0]` in jsonContent mode),
`content[].thinking`, and `cited_text` directly inside a
`web_search_result_location` object; recurses elsewhere; all other strings
are left untouched. -/
def capResponseTextFields (resp : Json) (jc : Bool) (limit : Nat) : Json :=
  match resp with
  | .null | .bool _ | .num _ | .str _ => resp
  | .arr xs => .arr (capRespArr xs jc limit)
  | .obj fs =>
      let wsrl : Bool :=
        match lookupField fs typeKey with
        | some (.str t) => t = wsrlTag
        | _ => false
      .obj (capRespFields wsrl fs jc limit)

/-- Array case of the `capResponseTextFields` traversal. -/
def capRespArr (xs : List Json) (jc : Bool) (limit : Nat) : List Json :=
  match xs with
  | [] => []
  | x :: rest => capResponseTextFields x jc limit :: capRespArr rest jc limit

/-- Field-list case of the `capResponseTextFields` traversal; `wsrl` records
whether the surrounding object's `type` is `web_search_result_location`. -/
def capRespFields (wsrl : Bool) (fs : List (JStr × Json)) (jc : Bool) (limit : Nat) :
    List (JStr × Json) :=
  match fs with
  | [] => []
  | (k, v) :: rest =>
    let v2 : Json :=
      match v with
      | .arr items =>
          if k = contentKey then .arr (capContentList jc limit 0 items)
          else capResponseTextFields v jc limit
      | .str s =>
          if wsrl ∧ k = citedTextKey then .str (capStr s limit)
          else capResponseTextFields v jc limit
      | _ => capResponseTextFields v jc limit
    (k, v2) :: capRespFields wsrl rest jc limit

/-- Indexed map of `capContentItem` over a `content` array. -/
def capContentList (jc : Bool) (limit : Nat) (idx : Nat) (items : List Json) : List Json :=
  match items with
  | [] => []
  | it :: rest => capContentItem jc limit idx it :: capContentList jc limit (idx + 1) rest
end

/-! ### `removeSignaturesFromResponse` (process-queue.js lines 265-287) -/

mutual
/-- Recursively drop every `signature` field from a response value. -/
def removeSignaturesFromResponse : Json → Json
  | .null => .null
  | .bool b => .bool b
  | .num q => .num q
  | .str s => .str s
  | .arr xs => .arr (removeSigArr xs)
  | .obj fs => .obj (removeSigFields fs)

/-- Array case of the signature-stripping traversal. -/
def removeSigArr : List Json → List Json
  | [] => []
  | x :: xs => removeSignaturesFromResponse x :: removeSigArr xs

/-- Field case of the signature-stripping traversal: `signature` keys are
skipped, other values are cleaned recursively. -/
def removeSigFields : List (JStr × Json) → List (JStr × Json)
  | [] => []
  | (k, v) :: fs =>
      if k = "signature".data then removeSigFields fs
      else (k, removeSignaturesFromResponse v) :: removeSigFields fs
end

/-! ### `JSON.stringify` (used for the size metadata in `_processingInfo`) -/

/-- Lowercase hexadecimal digit character. -/
def hexDigitChar (d : Nat) : Char :=
  if d % 16 < 10 then Char.ofNat (48 + d % 16) else Char.ofNat (87 + d % 16)

/-- JSON string escaping of one character (quote, backslash, and control
characters; controls without a short form become `\u00xx`). -/
def jsEscapeChar (c : Char) : JStr :=
  if c = '"' then ['\\', '"']
  else if c = '\\' then ['\\', '\\']
  else if c = '\n' then ['\\', 'n']
  else if c = '\r' then ['\\', 'r']
  else if c = '\t' then ['\\', 't']
  else if c.toNat < 32 then
    if c.toNat = 8 then ['\\', 'b']
    else if c.toNat = 12 then ['\\', 'f']
    else ['\\', 'u', '0', '0', hexDigitChar (c.toNat / 16), hexDigitChar c.toNat]
  else [c]

/-- JSON string escaping. -/
def jsEscape (s : JStr) : JStr := s.flatMap jsEscapeChar

/-- Deterministic decimal-ish rendering of a JS number: integers render as
in JS; the rendering of non-integers is abstracted (the service only ever
uses `stringify` output for its length). -/
def ratToChars (q : Rat) : JStr :=
  if q.den = 1 then intToChars q.num
  else intToChars q.num ++ '/' :: natToChars q.den

mutual
/-- Compact `JSON.stringify` over the embedded values. -/
def stringify : Json → JStr
  | .null => "null".data
  | .bool b => if b then "true".data else "false".data
  | .num q => ratToChars q
  | .str s => '"' :: (jsEscape s ++ ['"'])
  | .arr xs => '[' :: (stringifyItems xs ++ [']'])
  | .obj fs => '\x7b' :: (stringifyFields fs ++ ['\x7d'])

/-- Comma-joined array elements of `stringify`. -/
def stringifyItems : List Json → JStr
  | [] => []
  | [x] => stringify x
  | x :: rest => stringify x ++ ',' :: stringifyItems rest

/-- Comma-joined `"key":value` fields of `stringify`. -/
def stringifyFields : List (JStr × Json) → JStr
  | [] => []
  | [(k, v)] => '"' :: (jsEscape k ++ ['"', ':'] ++ stringify v)
  | (k, v) :: rest =>
      ('"' :: (jsEscape k ++ ['"', ':'] ++ stringify v)) ++ ',' :: stringifyFields rest
end

/-! ### `formatCitationsInPlace` (process-queue.js lines 664-728)

The two citation regexes match the literal shapes
`<cite index=\"IDX\">TEXT</cite>` (escaped variant) and
`<cite index="IDX">TEXT</cite>` (normal variant), with `IDX` a nonempty
run excluding the closing delimiter and `TEXT` a nonempty run excluding
`<`.  Both patterns are deterministic (no backtracking choice), so regex
scanning is embedded as a leftmost-match scanner.  Citation-object `url`,
`title` and `cited_text` slots are modelled at string type; non-string
values in those slots (never produced by the upstream API) are treated as
absent. -/

/-- One collected citation source: its assigned number, display title,
optional URL, kind (`true` = web citation object, `false` = doc marker),
and cited text. -/
structure CEntry where
  n : Nat
  title : JStr
  url : Option JStr
  kind : Bool
  text : JStr
deriving DecidableEq

/-- Opening literal of the cite-marker pattern. -/
def citeOpen (esc : Bool) : JStr :=
  if esc then "<cite index=\\\"".data else "<cite index=\"".data

/-- Middle literal (after the index capture) of the cite-marker pattern. -/
def citeMid (esc : Bool) : JStr := if esc then "\\\">".data else "\">".data

/-- Closing literal of the cite-marker pattern. -/
def citeClose : JStr := "</cite>".data

/-- The character at which the index capture of the pattern stops. -/
def citeStop (esc : Bool) : Char := if esc then '\\' else '"'

/-- Try to match one cite marker at the head of `s`; on success returns the
captured index, the captured cited text, and the remainder of `s`. -/
def matchCiteAt (esc : Bool) (s : JStr) : Option (JStr × JStr × JStr) :=
  if (citeOpen esc).isPrefixOf s then
    let r1 := s.drop (citeOpen esc).length
    let idx := r1.takeWhile (fun c => c ≠ citeStop esc)
    if idx.isEmpty then none
    else
      let r2 := r1.drop idx.length
      if (citeMid esc).isPrefixOf r2 then
        let r3 := r2.drop (citeMid esc).length
        let cited := r3.takeWhile (fun c => c ≠ '<')
        if cited.isEmpty then none
        else
          let r4 := r3.drop cited.length
          if citeClose.isPrefixOf r4 then some (idx, cited, r4.drop citeClose.length)
          else none
      else none
  else none

/-- Fuel-driven leftmost scan collecting all `(index, citedText)` matches,
resuming after each match (JS global-regex semantics). -/
def collectCiteAux (esc : Bool) : Nat → JStr → List (JStr × JStr)
  | 0, _ => []
  | _, [] => []
  | fuel+1, c :: cs =>
      match matchCiteAt esc (c :: cs) with
      | some (i, t, rest) => (i, t) :: collectCiteAux esc fuel rest
      | none => collectCiteAux esc fuel cs

/-- All cite-marker matches of a string, in text order. -/
def collectCiteMatches (esc : Bool) (s : JStr) : List (JStr × JStr) :=
  collectCiteAux esc (s.length + 1) s

/-- Fuel-driven leftmost replace of every cite-marker match by
`f index citedText` (JS `String.replace` with a global regex). -/
def replaceCiteAux (esc : Bool) (f : JStr → JStr → JStr) : Nat → JStr → JStr
  | 0, s => s
  | _, [] => []
  | fuel+1, c :: cs =>
      match matchCiteAt esc (c :: cs) with
      | some (i, t, rest) => f i t ++ replaceCiteAux esc f fuel rest
      | none => c :: replaceCiteAux esc f fuel cs

/-- Replace every cite-marker match of `s` by `f index citedText`. -/
def replaceCites (esc : Bool) (f : JStr → JStr → JStr) (s : JStr) : JStr :=
  replaceCiteAux esc f (s.length + 1) s

/-- Key of a doc-style citation in the consolidation map. -/
def citeKeyDoc (idx : JStr) : JStr := "doc:".data ++ idx

/-- First-occurrence lookup in the (insertion-ordered) citation map. -/
def lookupCite : List (JStr × CEntry) → JStr → Option CEntry
  | [], _ => none
  | (k, e) :: m, key => if k = key then some e else lookupCite m key

/-- Insert a doc-style citation if its key is new; the assigned number is
the map size plus one (the source's `n++` counter). -/
def insertDocCite (m : List (JStr × CEntry)) (idx cited : JStr) : List (JStr × CEntry) :=
  match lookupCite m (citeKeyDoc idx) with
  | some _ => m
  | none =>
      m ++ [(citeKeyDoc idx,
        { n := m.length + 1, title := "Source ".data ++ idx, url := none,
          kind := false, text := cited })]

/-- Insert a web citation object (keyed by its `url`) if new; skips
citation objects without a truthy `url`. -/
def insertWebCite (m : List (JStr × CEntry)) (c : Json) : List (JStr × CEntry) :=
  match jsGetProp c "url".data with
  | some (.str u) =>
    if u.isEmpty then m
    else
      match lookupCite m u with
      | some _ => m
      | none =>
          let title :=
            match jsGetProp c "title".data with
            | some (.str t) => if t.isEmpty then "Source".data else t
            | _ => "Source".data
          let ctext :=
            match jsGetProp c "cited_text".data with
            | some (.str t) => t
            | _ => []
          m ++ [(u,
            { n := m.length + 1, title := title, url := some u,
              kind := true, text := ctext })]
  | _ => m

/-- Collection pass over one content item: text items contribute their
escaped-marker matches, then normal-marker matches, then their
`citations` array entries. -/
def collectItemCites (m : List (JStr × CEntry)) (item : Json) : List (JStr × CEntry) :=
  match jsGetProp item "type".data, jsGetProp item "text".data with
  | some (.str ty), some (.str t) =>
    if ty = "text".data then
      let m1 := (collectCiteMatches true t).foldl (fun acc p => insertDocCite acc p.1 p.2) m
      let m2 := (collectCiteMatches false t).foldl (fun acc p => insertDocCite acc p.1 p.2) m1
      match jsGetProp item "citations".data with
      | some (.arr cs) => cs.foldl insertWebCite m2
      | _ => m2
    else m
  | _, _ => m

/-- The inline marker `[^n]`. -/
def citeMarker (n : Nat) : JStr := "[^".data ++ natToChars n ++ "]".data

/-- Replacement callback: a matched cite marker becomes the cited text
followed by `[^n]` when its key is in the map, else just the cited text. -/
def replCallback (m : List (JStr × CEntry)) (idx cited : JStr) : JStr :=
  match lookupCite m (citeKeyDoc idx) with
  | some e => cited ++ citeMarker e.n
  | none => cited

/-- Marker-insertion pass over one content item: rewrite escaped then
normal cite markers in `text`, then append one `[^n]` per resolvable
`citations` entry. -/
def formatItemText (m : List (JStr × CEntry)) (item : Json) : Json :=
  match jsGetProp item "type".data, jsGetProp item "text".data with
  | some (.str ty), some (.str t0) =>
    if ty = "text".data then
      let t1 := replaceCites true (replCallback m) t0
      let t2 := replaceCites false (replCallback m) t1
      let t3 :=
        match jsGetProp item "citations".data with
        | some (.arr cs) =>
          if cs.isEmpty then t2
          else t2 ++ cs.foldl (fun acc c =>
              match jsGetProp c "url".data with
              | some (.str u) =>
                match lookupCite m u with
                | some e => acc ++ citeMarker e.n
                | none => acc
              | _ => acc) []
        | _ => t2
      jsSetProp item "text".data (.str t3)
    else item
  | _, _ => item

/-- Insert a citation entry into a list sorted ascending by `n`. -/
def insertCiteByN (e : CEntry) : List CEntry → List CEntry
  | [] => [e]
  | x :: xs => if e.n ≤ x.n then e :: x :: xs else x :: insertCiteByN e xs

/-- Sort citation entries ascending by `n` (the source's
`sort((a, b) => a.n - b.n)`). -/
def sortCitesByN : List CEntry → List CEntry
  | [] => []
  | x :: xs => insertCiteByN x (sortCitesByN xs)

/-- One line of the Sources block. -/
def citeLine (e : CEntry) : JStr :=
  if e.kind then
    citeMarker e.n ++ ": [".data ++ e.title ++ "](".data
      ++ (match e.url with | some u => u | none => []) ++ ")".data
  else citeMarker e.n ++ ": ".data ++ e.text

/-- `formatCitationsInPlace(resp)`: spread-copy the content items, collect
citation sources into a numbered map (first-seen order), rewrite inline
markers, and append a consolidated Sources text block. -/
def formatCitationsInPlace (resp : Json) : Json :=
  match jsGetProp resp "content".data with
  | some cv =>
    if jsTruthy cv then
      match cv with
      | .arr items =>
        let spreadItems := items.map spreadToObj
        let out := jsSetProp resp "content".data (.arr spreadItems)
        let m := spreadItems.foldl collectItemCites []
        if m.isEmpty then out
        else
          let newItems := spreadItems.map (formatItemText m)
          let out2 := jsSetProp out "content".data (.arr newItems)
          let sources :=
            List.intercalate "\n".data ((sortCitesByN (m.map Prod.snd)).map citeLine)
          if sources.isEmpty then out2
          else
            jsSetProp out2 "content".data (.arr (newItems ++
              [.obj [("type".data, .str "text".data),
                ("text".data, .str ("\n\n---\n\n**Sources:**\n\n".data ++ sources))]]))
      | _ => resp
    else resp
  | none => resp

/-! ### `processClaudeResponseWithSizeControl` (process-queue.js lines 537-616) -/

/-- The `responseOptions` format flags of a submission (`!!`-coerced by the
source, hence booleans here). -/
structure ResponseOptions where
  webSearch : Bool
  jsonContent : Bool
  includeWrapper : Bool
deriving DecidableEq

/-- Per-model price rates (per 1M tokens). -/
structure ModelPricing where
  input : Rat
  output : Rat
deriving DecidableEq

/-- The parts of `request_payload` read by the worker's response pipeline. -/
structure RequestPayload where
  responseOptions : Option ResponseOptions
  modelPricing : Option ModelPricing
  requestId : JStr
  claudeRequestModel : Option JStr
deriving DecidableEq

/-- `!!responseOptions?.webSearch`. -/
def optWebSearch (p : RequestPayload) : Bool :=
  match p.responseOptions with
  | some o => o.webSearch
  | none => false

/-- `!!responseOptions?.jsonContent`. -/
def optJsonContent (p : RequestPayload) : Bool :=
  match p.responseOptions with
  | some o => o.jsonContent
  | none => false

/-- `responseOptions?.includeWrapper` (used as an if-condition). -/
def optIncludeWrapper (p : RequestPayload) : Bool :=
  match p.responseOptions with
  | some o => o.includeWrapper
  | none => false

/-- Model of `+(x).toFixed(6)`: round to 6 decimal places. -/
def roundTo6 (q : Rat) : Rat := (⌊q * 1000000 + 1 / 2⌋ : Int) / 1000000

/-- Numeric value of an optional field (`input_tokens` / `output_tokens`
destructured from `usage`); non-numeric slots collapse to 0 — the JS code
would propagate NaN there, and no claim in scope depends on cost values. -/
def jsNumOr0 : Option Json → Rat
  | some (.num q) => q
  | _ => 0

/-- The `cost` block attached on completion when pricing data and usage are
both present. -/
def costObjFor (p : RequestPayload) (mp : ModelPricing) (usage : Json) : Json :=
  let it := jsNumOr0 (jsGetProp usage "input_tokens".data)
  let ot := jsNumOr0 (jsGetProp usage "output_tokens".data)
  let inputCost := it / 1000000 * mp.input
  let outputCost := ot / 1000000 * mp.output
  .obj [("model".data,
      .str (match p.claudeRequestModel with
        | some m => if m.isEmpty then "claude-sonnet-4-20250514".data else m
        | none => "claude-sonnet-4-20250514".data)),
    ("inputTokens".data, .num it), ("outputTokens".data, .num ot),
    ("inputCost".data, .num (roundTo6 inputCost)),
    ("outputCost".data, .num (roundTo6 outputCost)),
    ("totalCost".data, .num (roundTo6 (inputCost + outputCost))),
    ("currency".data, .str "USD".data)]

/-- The fixed per-field text cap of the normalizer. -/
def textCapLimit : Nat := 45000

/-- Steps 1-4 of the pipeline: strip signatures, format citations when web
search was used, cap text fields, attach the cost block.  None of these
steps reads the clock. -/
def processBase (claudeResponse : Json) (payload : RequestPayload) : Json :=
  let r1 := removeSignaturesFromResponse claudeResponse
  let r2 := if optWebSearch payload then formatCitationsInPlace r1 else r1
  let r3 := capResponseTextFields r2 (optJsonContent payload) textCapLimit
  match payload.modelPricing, jsGetProp r3 usageKey with
  | some mp, some u =>
      if jsTruthy u then jsSetProp r3 costKey (costObjFor payload mp u) else r3
  | _, _ => r3

/-- The `processingLog` lines accumulated by the pipeline (the embedded
citation and cap steps are total, so their catch-branches never log). -/
def processLogs (claudeResponse : Json) (payload : RequestPayload) : List JStr :=
  let originalSize := (stringify (removeSignaturesFromResponse claudeResponse)).length
  ["Original response size: ".data ++ natToChars originalSize ++ " characters".data,
    if optWebSearch payload then "Web search detected, formatting citations…".data
    else "No web search used, skipping citation formatting".data]

/-- The `_processingInfo` block of the full-wrapper output. -/
def wrapperInfo (payload : RequestPayload) (originalSize finalSize : Nat)
    (logs : List JStr) : Json :=
  .obj [("webSearchEnabled".data, .bool (optWebSearch payload)),
    ("cleaningApplied".data, .bool false),
    ("originalSizeChars".data, .num originalSize),
    ("finalSizeChars".data, .num finalSize),
    ("processingLog".data, .arr (logs.map .str)),
    ("jsonContentMode".data, .bool (optJsonContent payload)),
    ("includeWrapperMode".data, .bool true),
    ("citationsFormatted".data, .bool (optWebSearch payload)),
    ("textCapLimit".data, .num (textCapLimit : Nat))]

/-- The `_processingInfo` block of the simplified output. -/
def simplifiedInfo (payload : RequestPayload) (logs : List JStr) : Json :=
  .obj [("webSearchEnabled".data, .bool (optWebSearch payload)),
    ("cleaningApplied".data, .bool false),
    ("jsonContentMode".data, .bool (optJsonContent payload)),
    ("includeWrapperMode".data, .bool false),
    ("citationsFormatted".data, .bool (optWebSearch payload)),
    ("processingLog".data, .arr (logs.map .str)),
    ("textCapLimit".data, .num (textCapLimit : Nat))]

/-- `finalResponse.content?.[0]?.text` — indexing into a value the JS way. -/
def jsIndex (j : Json) (i : Nat) : Option Json :=
  match j with
  | .arr xs => xs.get? i
  | .obj fs => lookupField fs (natToChars i)
  | .str s => (s.get? i).map (fun c => .str [c])
  | _ => none

/-- The optional chain `j.content?.[0]?.text`. -/
def firstContentText (j : Json) : Option Json :=
  (jsGetProp j contentKey).bind fun c => (jsIndex c 0).bind fun b =>
    jsGetProp b textKey

/-- `v || ""`: the value when truthy, else the empty string (also the empty
string when the chain produced `undefined`). -/
def jsOrEmptyStr (o : Option Json) : Json :=
  match o with
  | some v => if jsTruthy v then v else .str []
  | none => .str []

/-- The fully processed `finalResponse` before the output-shape branch:
pipeline steps 1-4, then the `requestId` and `completedAt` stamps. -/
def processedFullResponse (claudeResponse : Json) (payload : RequestPayload)
    (now : JStr) : Json :=
  jsSetProp (jsSetProp (processBase claudeResponse payload) requestIdKey
    (.str payload.requestId)) completedAtKey (.str now)

/-- `processClaudeResponseWithSizeControl(claudeResponse, requestPayload)`:
the full normalizer.  `now` is the wall-clock reading the source takes via
`new Date().toISOString()` for the `completedAt` stamps. -/
def processClaudeResponseWithSizeControl (claudeResponse : Json)
    (payload : RequestPayload) (now : JStr) : Json :=
  let logs := processLogs claudeResponse payload
  let originalSize := (stringify (removeSignaturesFromResponse claudeResponse)).length
  let r6 := processedFullResponse claudeResponse payload now
  if optIncludeWrapper payload then
    jsSetProp r6 processingInfoKey
      (wrapperInfo payload originalSize (stringify r6).length logs)
  else
    .obj ([(contentKey, jsOrEmptyStr (firstContentText r6)),
        (requestIdKey, .str payload.requestId),
        (completedAtKey, .str now)]
      ++ (match jsGetProp r6 costKey with
          | some c => if jsTruthy c then [(costKey, c)] else []
          | none => [])
      ++ [(processingInfoKey, simplifiedInfo payload logs)])

/-! ### `callClaudeAPI` retry loop (process-queue.js lines 359-502) -/

/-- The observable outcome of one upstream attempt: an HTTP response with a
status code, an abort (timeout), a fetch `TypeError` (network/transport
failure), or any other thrown error (e.g. a response-body parse failure). -/
inductive AttemptResult where
  | http (status : Nat)
  | abortErr
  | typeFetchErr
  | otherErr
deriving DecidableEq

/-- What the loop does with one attempt's outcome: succeed, fail
terminally, or (if attempts remain) retry. -/
inductive Disposition where
  | success
  | terminalFail
  | retryable
deriving DecidableEq

/-- The control flow of the source per attempt: `response.ok` (2xx)
returns; a 4xx other than 429 throws immediately; every other non-ok
status falls through to retry; abort and fetch-TypeError errors retry;
other errors rethrow immediately. -/
def attemptDisposition : AttemptResult → Disposition
  | .http s =>
      if 200 ≤ s ∧ s < 300 then .success
      else if 400 ≤ s ∧ s < 500 ∧ s ≠ 429 then .terminalFail
      else .retryable
  | .abortErr => .retryable
  | .typeFetchErr => .retryable
  | .otherErr => .terminalFail

/-- Whether the loop retries after this outcome, attempts permitting. -/
def shouldRetry (r : AttemptResult) : Bool := attemptDisposition r == .retryable

/-- `maxRetries = 2`: total of 3 attempts (1 initial + 2 retries). -/
def maxRetries : Nat := 2

/-- `Math.min(1000 * Math.pow(2, attempt - 1), 5000)`: the backoff delay
awaited before retry attempt `a ≥ 1`. -/
def backoffMs (a : Nat) : Nat := min (1000 * 2 ^ (a - 1)) 5000

/-- The attempt indices executed by the retry loop, given an oracle for
each attempt's outcome; `fuel` bounds the recursion (`maxRetries + 1`
suffices from attempt 0). -/
def attemptsFrom (oracle : Nat → AttemptResult) : Nat → Nat → List Nat
  | _, 0 => []
  | a, fuel + 1 =>
      a :: (match attemptDisposition (oracle a) with
        | .success => []
        | .terminalFail => []
        | .retryable => if a < maxRetries then attemptsFrom oracle (a + 1) fuel else [])

/-- The attempt indices executed by one `callClaudeAPI` invocation. -/
def callAttempts (oracle : Nat → AttemptResult) : List Nat :=
  attemptsFrom oracle 0 (maxRetries + 1)

/-- The backoff delays awaited during one invocation (one before every
attempt after the first). -/
def callDelays (oracle : Nat → AttemptResult) : List Nat :=
  ((callAttempts oracle).drop 1).map backoffMs

/-! ### The job row, the trigger handler, and its concurrent interleaving
(process-queue.js lines 130-263, queue-request.js insert) -/

/-- Job status enum. -/
inductive JStatus where
  | queued
  | processing
  | completed
  | failed
deriving DecidableEq

/-- One `llm_requests` row (the fields the embedded operations touch). -/
structure JobRec where
  status : JStatus
  result : Option JStr
  error : Option JStr
  processingStartedAt : Option Nat
  completedAt : Option Nat
  fetchedAt : Option Nat
  webhookRetryCount : Nat
  lastWebhookRetryAt : Option Nat
deriving DecidableEq

/-- The row inserted by `queue-request.js`: status `queued`, no payload
columns set beyond the request itself (`response_payload`, `error_message`,
timestamps and retry counters take their null/zero defaults). -/
def insertJob : JobRec :=
  { status := .queued, result := none, error := none,
    processingStartedAt := none, completedAt := none, fetchedAt := none,
    webhookRetryCount := 0, lastWebhookRetryAt := none }

/-- `processing` staleness threshold: 20 minutes in milliseconds. -/
def stuckThresholdMs : Nat := 1200000

/-- The unconditional mark-processing update (`status = 'processing'`,
`processing_started_at = now`, `error_message = null`), keyed only by
`request_id`. -/
def markProcessing (j : JobRec) (now : Nat) : JobRec :=
  { j with status := .processing, processingStartedAt := some now, error := none }

/-- The completion update (`status = 'completed'`, `response_payload`,
`completed_at`); it does not touch `error_message`. -/
def completeJob (j : JobRec) (r : JStr) (now : Nat) : JobRec :=
  { j with status := .completed, result := some r, completedAt := some now }

/-- The catch-block failure update (`status = 'failed'`, `error_message`,
`completed_at`); it does not touch `response_payload`. -/
def failJob (j : JobRec) (e : JStr) (now : Nat) : JobRec :=
  { j with status := .failed, error := some e, completedAt := some now }

/-- Whether the handler's status check lets an invocation proceed to mark
the job processing: `queued` proceeds; `processing` proceeds only past the
staleness threshold (a missing start timestamp compares as stuck, matching
the NaN comparison in JS); terminal states return early. -/
def beginAllowed (snap : JobRec) (now : Nat) : Bool :=
  match snap.status with
  | .queued => true
  | .processing =>
      match snap.processingStartedAt with
      | some st => decide (stuckThresholdMs ≤ now - st)
      | none => true
  | .completed => false
  | .failed => false

/-- The upstream outcome seen by one handler invocation. -/
inductive Outcome where
  | ok (r : JStr)
  | err (e : JStr)
deriving DecidableEq

/-- Program counter of one trigger invocation: 0 = about to read the row,
1 = about to check the snapshot and (if allowed) write the processing
update, 2 = about to call the upstream provider, 3 = about to write the
terminal update, 4 = done. -/
structure InvState where
  pc : Nat
  snap : Option JobRec
deriving DecidableEq

/-- A fresh invocation. -/
def invStart : InvState := { pc := 0, snap := none }

/-- One atomic step of a trigger invocation against the shared row `j` at
time `now`; returns the new invocation state, the new row, and whether
this step performed the upstream call. -/
def invStep (outcome : Outcome) (now : Nat) (inv : InvState) (j : JobRec) :
    InvState × JobRec × Bool :=
  match inv.pc with
  | 0 => ({ pc := 1, snap := some j }, j, false)
  | 1 =>
      match inv.snap with
      | some s =>
          if beginAllowed s now then ({ inv with pc := 2 }, markProcessing j now, false)
          else ({ inv with pc := 4 }, j, false)
      | none => ({ inv with pc := 4 }, j, false)
  | 2 => ({ inv with pc := 3 }, j, true)
  | 3 =>
      match outcome with
      | .ok r => ({ inv with pc := 4 }, completeJob j r now, false)
      | .err e => ({ inv with pc := 4 }, failJob j e now, false)
  | _ => (inv, j, false)

/-- Shared state of one job row and two concurrent trigger invocations. -/
structure Sys2 where
  job : JobRec
  a : InvState
  b : InvState
  upstreamCalls : Nat
deriving DecidableEq

/-- Initial state: the freshly inserted row and two pending invocations. -/
def sys2Init : Sys2 :=
  { job := insertJob, a := invStart, b := invStart, upstreamCalls := 0 }

/-- Run one step of invocation A (`who = true`) or B (`who = false`) at
time `now`. -/
def sys2Step (oa ob : Outcome) (s : Sys2) (who : Bool) (now : Nat) : Sys2 :=
  if who then
    let (a2, j2, call) := invStep oa now s.a s.job
    { s with
      a := a2, job := j2,
      upstreamCalls := s.upstreamCalls + (if call then 1 else 0) }
  else
    let (b2, j2, call) := invStep ob now s.b s.job
    { s with
      b := b2, job := j2,
      upstreamCalls := s.upstreamCalls + (if call then 1 else 0) }

/-- Run a schedule: a list of `(who, time)` interleaving choices. -/
def sys2Run (oa ob : Outcome) (init : Sys2) : List (Bool × Nat) → Sys2
  | [] => init
  | (who, now) :: rest => sys2Run oa ob (sys2Step oa ob init who now) rest

/-- One complete, non-overlapping execution of the trigger handler on a
row: the status check, then (if allowed) the processing update, the
upstream call, and the terminal update. -/
def handlerRun (j : JobRec) (outcome : Outcome) (now : Nat) : JobRec :=
  if beginAllowed j now then
    let j1 := markProcessing j now
    match outcome with
    | .ok r => completeJob j1 r now
    | .err e => failJob j1 e now
  else j

/-- The result/error nullness invariant of the data model: both null while
non-terminal, exactly one non-null once terminal. -/
def statusInv (j : JobRec) : Prop :=
  match j.status with
  | .queued | .processing => j.result = none ∧ j.error = none
  | .completed | .failed =>
      (j.result = none ∧ j.error ≠ none) ∨ (j.result ≠ none ∧ j.error = none)

instance (j : JobRec) : Decidable (statusInv j) := by
  unfold statusInv
  match j.status with
  | .queued | .processing | .completed | .failed => infer_instance

/-! ### `webhook-monitor.js`: reconciliation sweep and webhook retry -/

/-- The monitor's row filter: completed, unfetched, completed strictly
more than 2 minutes but strictly less than 30 minutes ago, fewer than 3
webhook retries (`webhook_retry_count` is modelled with its zero default,
matching the source's `|| 0` handling). -/
def monitorPred (now : Nat) (j : JobRec) : Bool :=
  j.status == .completed && j.fetchedAt == none &&
    (match j.completedAt with
     | some t => decide (t < now - 120000) && decide (now - 1800000 < t)
     | none => false) &&
    j.webhookRetryCount < 3

/-- Insert a row into a list sorted descending by `completed_at`
(`order('completed_at', { ascending: false })`). -/
def insertByCompletedDesc (j : JobRec) : List JobRec → List JobRec
  | [] => [j]
  | x :: xs =>
      if (x.completedAt.getD 0) ≤ (j.completedAt.getD 0) then j :: x :: xs
      else x :: insertByCompletedDesc j xs

/-- Sort rows descending by `completed_at`. -/
def sortByCompletedDesc : List JobRec → List JobRec
  | [] => []
  | x :: xs => insertByCompletedDesc x (sortByCompletedDesc xs)

/-- The monitor's selection query: filter, order newest-first, `limit(50)`. -/
def monitorSelect (jobs : List JobRec) (now : Nat) : List JobRec :=
  (sortByCompletedDesc (jobs.filter (monitorPred now))).take 50

/-- The notification a webhook retry sends (the fields of its JSON body
that depend on the row). -/
structure RetryNotice where
  retryCount : Nat
  isRetry : Bool
deriving DecidableEq

/-- `retryWebhook(request)`: first the retry-tracking update
(`webhook_retry_count + 1`, `last_webhook_retry_at = now`), then the push;
the notice body carries the already-incremented count. -/
def retryWebhook (j : JobRec) (now : Nat) : JobRec × RetryNotice :=
  let j2 := { j with webhookRetryCount := j.webhookRetryCount + 1,
                     lastWebhookRetryAt := some now }
  (j2, { retryCount := j.webhookRetryCount + 1, isRetry := true })

/-- Send times of the monitor's webhook pushes, relative to the start of
the batch loop: batches of 5 are pushed in parallel (modelled as
simultaneous, with zero send duration), with a 1-second await between
consecutive batches.  `sendTimesAux fuel t n` emits times for `n`
remaining jobs starting at clock `t`; fuel `n` suffices. -/
def sendTimesAux : Nat → Nat → Nat → List Nat
  | 0, _, _ => []
  | fuel + 1, t, n =>
      if n = 0 then []
      else List.replicate (min 5 n) t ++ sendTimesAux fuel (t + 1000) (n - 5)

/-- The push times of a monitor run over `n` selected jobs. -/
def monitorSendTimes (n : Nat) : List Nat := sendTimesAux n 0 n

/-! ### Status endpoint marking `fetched_at` -/

/-- Modelled from the spec: the fetch-recording status lookup.  The
repository's design notes describe a `request-status.js` update that
"records the fetch in Supabase" whenever a caller retrieves results via
`checkRequest`, and `webhook-monitor.js` relies on the `fetched_at` column
it writes, but that version of the endpoint is not among the source files;
this definition follows the spec: a read of a completed job's result marks
`fetched_at` if unset, and the lookup changes nothing else. -/
def statusLookup (j : JobRec) (now : Nat) : JobRec × Option JStr :=
  if j.status = .completed ∧ j.fetchedAt = none then
    ({ j with fetchedAt := some now }, j.result)
  else (j, if j.status = .completed then j.result else none)

/-! ### Auxiliary specification-side definitions used by the theorems -/

/-- Checker mirroring the cap sites of `capContentItem`: in a content item,
`text` obeys the limit when `type === "text"` (except the jsonContent
exemption at index 0) and `thinking` obeys it when `type === "thinking"`. -/
def capContentItemOk (jc : Bool) (limit : Nat) (idx : Nat) (item : Json) : Bool :=
  match item with
  | .obj fs =>
      (match lookupField fs typeKey with
       | some (.str t) =>
           (if t = textKey then
              match lookupField fs textKey with
              | some (.str s) => (jc && idx == 0) || decide (s.length ≤ limit)
              | _ => true
            else true)
           && (if t = thinkingKey then
                 match lookupField fs thinkingKey with
                 | some (.str s) => decide (s.length ≤ limit)
                 | _ => true
               else true)
       | _ => true)
  | _ => true

mutual
/-- Checker mirroring the traversal of `capResponseTextFields`: every field
the cap step designates (content text/thinking, `web_search_result_location`
cited text) obeys the limit, modulo the jsonContent exemption. -/
def capRespOk (resp : Json) (jc : Bool) (limit : Nat) : Bool :=
  match resp with
  | .null | .bool _ | .num _ | .str _ => true
  | .arr xs => capArrOk xs jc limit
  | .obj fs =>
      let wsrl : Bool :=
        match lookupField fs typeKey with
        | some (.str t) => t = wsrlTag
        | _ => false
      capFieldsOk wsrl fs jc limit

/-- Array case of the cap checker. -/
def capArrOk (xs : List Json) (jc : Bool) (limit : Nat) : Bool :=
  match xs with
  | [] => true
  | x :: rest => capRespOk x jc limit && capArrOk rest jc limit

/-- Field case of the cap checker. -/
def capFieldsOk (wsrl : Bool) (fs : List (JStr × Json)) (jc : Bool) (limit : Nat) : Bool :=
  match fs with
  | [] => true
  | (k, v) :: rest =>
      (match v with
       | .arr items =>
           if k = contentKey then capContentOkList jc limit 0 items
           else capRespOk v jc limit
       | .str s =>
           if wsrl ∧ k = citedTextKey then decide (s.length ≤ limit)
           else capRespOk v jc limit
       | _ => capRespOk v jc limit)
      && capFieldsOk wsrl rest jc limit

/-- Indexed content-item case of the cap checker. -/
def capContentOkList (jc : Bool) (limit : Nat) (idx : Nat) (items : List Json) : Bool :=
  match items with
  | [] => true
  | it :: rest => capContentItemOk jc limit idx it && capContentOkList jc limit (idx + 1) rest
end

/-- Drop a top-level property of a value (used to compare normalizer
outputs modulo their `completedAt` stamp). -/
def eraseProp (j : Json) (k : JStr) : Json :=
  match j with
  | .obj fs => .obj (fs.filter (fun kv => !(kv.1 == k)))
  | _ => j

/-- A completed, unfetched, reconciliation-eligible row whose
`completed_at` is `300000 + 100 * i` (used with `now = 2000000`). -/
def mkMonJob (i : Nat) : JobRec :=
  { status := .completed, result := some "r".data, error := none,
    processingStartedAt := some 1000, completedAt := some (300000 + 100 * i),
    fetchedAt := none, webhookRetryCount := 0, lastWebhookRetryAt := none }

/-- Fifty-one rows that all satisfy the monitor filter at `now = 2000000`. -/
def monJobs51 : List JobRec := (List.range 51).map mkMonJob


/-! ## Infrastructure lemmas -/

mutual
theorem beqJ_iff : ∀ a b, beqJ a b = true ↔ a = b
  | .null, b => by cases b <;> simp [beqJ]
  | .bool x, b => by cases b <;> simp [beqJ]
  | .num x, b => by cases b <;> simp [beqJ]
  | .str x, b => by cases b <;> simp [beqJ]
  | .arr xs, b => by cases b <;> simp [beqJ, beqJs_iff xs]
  | .obj fs, b => by cases b <;> simp [beqJ, beqFs_iff fs]

theorem beqJs_iff : ∀ a b, beqJs a b = true ↔ a = b
  | [], b => by cases b <;> simp [beqJs]
  | x :: xs, b => by cases b <;> simp [beqJs, beqJ_iff x, beqJs_iff xs]

theorem beqFs_iff : ∀ a b, beqFs a b = true ↔ a = b
  | [], b => by cases b <;> simp [beqFs]
  | (k, v) :: fs, b => by
      cases b with
      | nil => simp [beqFs]
      | cons hd tl =>
        obtain ⟨k2, v2⟩ := hd
        simp [beqFs, beqJ_iff v, beqFs_iff fs, and_assoc]
end

instance : DecidableEq Json := fun a b => decidable_of_iff (beqJ a b = true) (beqJ_iff a b)

theorem natDigitChar_isDigit (d : Nat) : (natDigitChar d).isDigit = true := by
  have h : d % 10 < 10 := Nat.mod_lt _ (by norm_num)
  unfold natDigitChar
  interval_cases h : d % 10 <;> decide

theorem natToCharsAux_digits :
    ∀ fuel n acc, (∀ c ∈ acc, c.isDigit = true) →
      ∀ c ∈ natToCharsAux fuel n acc, c.isDigit = true := by
  intro fuel
  induction fuel with
  | zero => intro n acc hacc c hc; exact hacc c hc
  | succ fuel ih =>
    intro n acc hacc c hc
    simp only [natToCharsAux] at hc
    have hacc2 : ∀ c ∈ natDigitChar (n % 10) :: acc, c.isDigit = true := by
      intro c hc
      rcases List.mem_cons.mp hc with h | h
      · subst h; exact natDigitChar_isDigit _
      · exact hacc c h
    by_cases hn : n < 10
    · simp only [hn, if_true] at hc
      exact hacc2 c hc
    · simp only [hn, if_false] at hc
      exact ih _ _ hacc2 c hc

theorem natToChars_digits (n : Nat) : ∀ c ∈ natToChars n, c.isDigit = true :=
  natToCharsAux_digits _ _ _ (by simp)

theorem natToChars_ne_type (n : Nat) : natToChars n ≠ "type".data := by
  intro h
  have ht : 't' ∈ natToChars n := by rw [h]; decide
  have := natToChars_digits n 't' ht
  simp at this

theorem lookup_spreadArr_type (i : Nat) (xs : List Json) :
    lookupField (spreadArrFields i xs) "type".data = none := by
  induction xs generalizing i with
  | nil => simp [spreadArrFields, lookupField]
  | cons x xs ih =>
    simp [spreadArrFields, lookupField, natToChars_ne_type i, ih]

theorem lookupField_setFieldJs_self (fs : List (JStr × Json)) (k : JStr) (v : Json) :
    lookupField (setFieldJs fs k v) k = some v := by
  induction fs with
  | nil => simp [setFieldJs, lookupField]
  | cons kv fs ih =>
    obtain ⟨k2, v2⟩ := kv
    by_cases h : k2 = k
    · simp [setFieldJs, h, lookupField]
    · simp [setFieldJs, h, lookupField, ih]

theorem lookupField_setFieldJs_ne (fs : List (JStr × Json)) (k k2 : JStr) (v : Json)
    (h : k2 ≠ k) : lookupField (setFieldJs fs k v) k2 = lookupField fs k2 := by
  induction fs with
  | nil => simp [setFieldJs, lookupField, Ne.symm h]
  | cons kv fs ih =>
    obtain ⟨k3, v3⟩ := kv
    by_cases h3 : k3 = k
    · subst h3
      simp [setFieldJs, lookupField, Ne.symm h]
    · by_cases h2 : k3 = k2
      · subst h2
        simp [setFieldJs, h3, lookupField]
      · simp [setFieldJs, h3, lookupField, h2, ih]

theorem setFieldJs_setFieldJs_same (fs : List (JStr × Json)) (k : JStr) (v w : Json) :
    setFieldJs (setFieldJs fs k v) k w = setFieldJs fs k w := by
  induction fs with
  | nil => simp [setFieldJs]
  | cons kv fs ih =>
    obtain ⟨k2, v2⟩ := kv
    by_cases h : k2 = k
    · simp [setFieldJs, h]
    · simp [setFieldJs, h, ih]

theorem capStr_length_le (s : JStr) (limit : Nat) : (capStr s limit).length ≤ limit ∨ capStr s limit = s := by
  unfold capStr
  by_cases h : limit < s.length
  · left; simp [h, List.length_take]
  · right; simp [h]

theorem capStr_le (s : JStr) (limit : Nat) (h : s.length ≤ limit) : capStr s limit = s := by
  unfold capStr
  simp [Nat.not_lt.mpr h]

theorem capStr_length (s : JStr) (limit : Nat) : (capStr s limit).length ≤ max s.length limit := by
  unfold capStr
  by_cases h : limit < s.length
  · simp [h, List.length_take]
  · simp [h]

theorem capStr_idem (s : JStr) (limit : Nat) : capStr (capStr s limit) limit = capStr s limit := by
  unfold capStr
  by_cases h : limit < s.length
  · simp [h, List.length_take]
  · simp [h]


theorem natToChars_ne_of_not_digit (k : JStr) (c : Char) (hc : c ∈ k)
    (hd : ¬c.isDigit = true) : ∀ n, natToChars n ≠ k := by
  intro n h
  exact hd (natToChars_digits n c (h ▸ hc))

theorem lookup_spreadArr_typeKey (i : Nat) (xs : List Json) :
    lookupField (spreadArrFields i xs) typeKey = none := by
  induction xs generalizing i with
  | nil => simp [spreadArrFields, lookupField]
  | cons x xs ih =>
    simp [spreadArrFields, lookupField, ih,
      natToChars_ne_of_not_digit typeKey 't' (by decide) (by decide) i]

theorem lookupField_capRespFields (wsrl : Bool) (fs : List (JStr × Json))
    (jc : Bool) (L : Nat) (k : JStr) :
    lookupField (capRespFields wsrl fs jc L) k
    = Option.map (fun v =>
        match v with
        | .arr items =>
            if k = contentKey then Json.arr (capContentList jc L 0 items)
            else capResponseTextFields v jc L
        | .str s =>
            if wsrl ∧ k = citedTextKey then .str (capStr s L)
            else capResponseTextFields v jc L
        | _ => capResponseTextFields v jc L) (lookupField fs k) := by
  induction fs with
  | nil => simp [capRespFields, lookupField]
  | cons kv fs ih =>
    obtain ⟨k2, v2⟩ := kv
    by_cases h : k2 = k
    · subst h
      cases v2 <;> simp [capRespFields, lookupField]
    · cases v2 <;> simp [capRespFields, lookupField, h, ih]

theorem capContentItem_arr (jc : Bool) (L idx : Nat) (xs : List Json) :
    capContentItem jc L idx (.arr xs) = .obj (spreadArrFields 0 xs) := by
  simp [capContentItem, jsSpreadFields, lookup_spreadArr_typeKey]

theorem capContentItem_idem (jc : Bool) (L idx : Nat) (item : Json) :
    capContentItem jc L idx (capContentItem jc L idx item) = capContentItem jc L idx item := by
  have httk : (textKey : JStr) ≠ thinkingKey := by decide
  have htyt : (typeKey : JStr) ≠ textKey := by decide
  have htyh : (typeKey : JStr) ≠ thinkingKey := by decide
  cases item with
  | null => rfl
  | bool b => rfl
  | num q => rfl
  | str s => rfl
  | arr xs =>
      rw [capContentItem_arr]
      simp [capContentItem, jsSpreadFields, lookup_spreadArr_typeKey]
  | obj fs =>
      rcases htype : lookupField fs typeKey with _ | v
      · have h1 : capContentItem jc L idx (.obj fs) = .obj fs := by
          simp [capContentItem, jsSpreadFields, htype]
        rw [h1]; exact h1
      · cases v with
        | str t =>
          by_cases ht : t = textKey
          · subst ht
            rcases htext : lookupField fs textKey with _ | w
            · have h1 : capContentItem jc L idx (.obj fs) = .obj fs := by
                simp [capContentItem, jsSpreadFields, htype, htext, httk]
              rw [h1]; exact h1
            · cases w with
              | str s =>
                by_cases hex : (jc && idx == 0) = true
                · have h1 : capContentItem jc L idx (.obj fs) = .obj fs := by
                    simp [capContentItem, jsSpreadFields, htype, htext, hex, httk]
                  rw [h1]; exact h1
                · have h1 : capContentItem jc L idx (.obj fs)
                      = .obj (setFieldJs fs textKey (.str (capStr s L))) := by
                    simp [capContentItem, jsSpreadFields, htype, htext, hex, httk,
                      lookupField_setFieldJs_ne fs textKey typeKey _ htyt]
                  rw [h1]
                  simp [capContentItem, jsSpreadFields, hex, httk,
                    lookupField_setFieldJs_ne fs textKey typeKey _ htyt, htype,
                    lookupField_setFieldJs_self, setFieldJs_setFieldJs_same, capStr_idem,
                    lookupField_setFieldJs_ne (setFieldJs fs textKey (.str (capStr s L)))
                      textKey typeKey _ htyt]
              | _ =>
                have h1 : capContentItem jc L idx (.obj fs) = .obj fs := by
                  simp [capContentItem, jsSpreadFields, htype, htext, httk]
                rw [h1]; exact h1
          · by_cases hh : t = thinkingKey
            · subst hh
              rcases hthink : lookupField fs thinkingKey with _ | w
              · have h1 : capContentItem jc L idx (.obj fs) = .obj fs := by
                  simp [capContentItem, jsSpreadFields, htype, ht, hthink]
                rw [h1]; exact h1
              · cases w with
                | str s =>
                  have h1 : capContentItem jc L idx (.obj fs)
                      = .obj (setFieldJs fs thinkingKey (.str (capStr s L))) := by
                    simp [capContentItem, jsSpreadFields, htype, ht, hthink]
                  rw [h1]
                  simp [capContentItem, jsSpreadFields, ht,
                    lookupField_setFieldJs_ne fs thinkingKey typeKey _ htyh, htype,
                    lookupField_setFieldJs_self, setFieldJs_setFieldJs_same, capStr_idem,
                    lookupField_setFieldJs_ne (setFieldJs fs thinkingKey (.str (capStr s L)))
                      thinkingKey typeKey _ htyh]
                | _ =>
                  have h1 : capContentItem jc L idx (.obj fs) = .obj fs := by
                    simp [capContentItem, jsSpreadFields, htype, ht, hthink]
                  rw [h1]; exact h1
            · have h1 : capContentItem jc L idx (.obj fs) = .obj fs := by
                simp [capContentItem, jsSpreadFields, htype, ht, hh]
              rw [h1]; exact h1
        | _ =>
          have h1 : capContentItem jc L idx (.obj fs) = .obj fs := by
            simp [capContentItem, jsSpreadFields, htype]
          rw [h1]; exact h1

mutual
theorem capResp_idem : ∀ (resp : Json) (jc : Bool) (L : Nat),
    capResponseTextFields (capResponseTextFields resp jc L) jc L
    = capResponseTextFields resp jc L
  | .null, _, _ => rfl
  | .bool _, _, _ => rfl
  | .num _, _, _ => rfl
  | .str _, _, _ => rfl
  | .arr xs, jc, L => by
      simp only [capResponseTextFields]
      rw [capRespArr_idem xs jc L]
  | .obj fs, jc, L => by
      have hc : (typeKey : JStr) ≠ contentKey := by decide
      have hw : (typeKey : JStr) ≠ citedTextKey := by decide
      rcases htype : lookupField fs typeKey with _ | v
      · simp [capResponseTextFields, htype, lookupField_capRespFields,
          capRespFields_idem]
      · cases v with
        | str t =>
            simp [capResponseTextFields, htype, lookupField_capRespFields, hw,
              capRespFields_idem]
        | null =>
            simp [capResponseTextFields, htype, lookupField_capRespFields,
              capRespFields_idem]
        | bool b =>
            simp [capResponseTextFields, htype, lookupField_capRespFields,
              capRespFields_idem]
        | num q =>
            simp [capResponseTextFields, htype, lookupField_capRespFields,
              capRespFields_idem]
        | arr items =>
            simp [capResponseTextFields, htype, lookupField_capRespFields, hc,
              capRespFields_idem]
        | obj ofs =>
            simp [capResponseTextFields, htype, lookupField_capRespFields,
              capRespFields_idem]

theorem capRespArr_idem : ∀ (xs : List Json) (jc : Bool) (L : Nat),
    capRespArr (capRespArr xs jc L) jc L = capRespArr xs jc L
  | [], _, _ => rfl
  | x :: xs, jc, L => by
      simp only [capRespArr]
      rw [capResp_idem x jc L, capRespArr_idem xs jc L]

theorem capRespFields_idem : ∀ (wsrl : Bool) (fs : List (JStr × Json)) (jc : Bool) (L : Nat),
    capRespFields wsrl (capRespFields wsrl fs jc L) jc L = capRespFields wsrl fs jc L
  | _, [], _, _ => rfl
  | wsrl, (k, v) :: fs, jc, L => by
      cases v with
      | arr items =>
          by_cases hk : k = contentKey
          · simp only [capRespFields, hk, if_true]
            rw [capContentList_idem 0 items jc L, capRespFields_idem wsrl fs jc L]
          · simp only [capRespFields, hk, if_false]
            have h2 : capResponseTextFields (.arr items) jc L
                = .arr (capRespArr items jc L) := by simp [capResponseTextFields]
            rw [h2]
            simp only [capRespFields, hk, if_false]
            rw [← h2, capResp_idem (.arr items) jc L, h2,
              capRespFields_idem wsrl fs jc L]
      | str s =>
          have ih := capRespFields_idem wsrl fs jc L
          by_cases hk : wsrl = true ∧ k = citedTextKey
          · obtain ⟨hw, hkk⟩ := hk
            subst hkk; subst hw
            simp [capRespFields, capStr_idem, ih]
          · have h2 : capResponseTextFields (.str s) jc L = .str s := rfl
            simp [capRespFields, hk, h2, ih]
      | null =>
          have h2 : capResponseTextFields .null jc L = .null := rfl
          simp only [capRespFields, h2]
          rw [capRespFields_idem wsrl fs jc L]
      | bool b =>
          have h2 : capResponseTextFields (.bool b) jc L = .bool b := rfl
          simp only [capRespFields, h2]
          rw [capRespFields_idem wsrl fs jc L]
      | num q =>
          have h2 : capResponseTextFields (.num q) jc L = .num q := rfl
          simp only [capRespFields, h2]
          rw [capRespFields_idem wsrl fs jc L]
      | obj ofs =>
          have ih := capRespFields_idem wsrl fs jc L
          have hcr := capResp_idem (.obj ofs) jc L
          have hobj : capResponseTextFields (.obj ofs) jc L
              = .obj (capRespFields
                  (match lookupField ofs typeKey with
                   | some (.str t) => decide (t = wsrlTag)
                   | _ => false) ofs jc L) := by
            simp [capResponseTextFields]
          rw [hobj] at hcr
          simp [capRespFields, hobj, hcr, ih]

theorem capContentList_idem : ∀ (idx : Nat) (items : List Json) (jc : Bool) (L : Nat),
    capContentList jc L idx (capContentList jc L idx items) = capContentList jc L idx items
  | _, [], _, _ => rfl
  | idx, it :: items, jc, L => by
      simp only [capContentList]
      rw [capContentItem_idem jc L idx it, capContentList_idem (idx + 1) items jc L]
end

theorem capStr_le_limit (s : JStr) (limit : Nat) : (capStr s limit).length ≤ limit := by
  unfold capStr
  by_cases h : limit < s.length
  · simp [h]
  · simp [h]
    omega

theorem capContentItemOk_cap (jc : Bool) (L idx : Nat) (item : Json) :
    capContentItemOk jc L idx (capContentItem jc L idx item) = true := by
  have httk : (textKey : JStr) ≠ thinkingKey := by decide
  have htyt : (typeKey : JStr) ≠ textKey := by decide
  have htyh : (typeKey : JStr) ≠ thinkingKey := by decide
  cases item with
  | null => rfl
  | bool b => rfl
  | num q => rfl
  | str s => rfl
  | arr xs =>
      rw [capContentItem_arr]
      simp [capContentItemOk, lookup_spreadArr_typeKey]
  | obj fs =>
      rcases htype : lookupField fs typeKey with _ | v
      · have h1 : capContentItem jc L idx (.obj fs) = .obj fs := by
          simp [capContentItem, jsSpreadFields, htype]
        rw [h1]
        simp [capContentItemOk, htype]
      · cases v with
        | str t =>
          by_cases ht : t = textKey
          · subst ht
            rcases htext : lookupField fs textKey with _ | w
            · have h1 : capContentItem jc L idx (.obj fs) = .obj fs := by
                simp [capContentItem, jsSpreadFields, htype, htext, httk]
              rw [h1]
              simp [capContentItemOk, htype, htext, httk]
            · cases w with
              | str s =>
                by_cases hex : (jc && idx == 0) = true
                · have h1 : capContentItem jc L idx (.obj fs) = .obj fs := by
                    simp [capContentItem, jsSpreadFields, htype, htext, hex, httk]
                  rw [h1]
                  simp [capContentItemOk, htype, htext, hex, httk]
                · have h1 : capContentItem jc L idx (.obj fs)
                      = .obj (setFieldJs fs textKey (.str (capStr s L))) := by
                    simp [capContentItem, jsSpreadFields, htype, htext, hex, httk,
                      lookupField_setFieldJs_ne fs textKey typeKey _ htyt]
                  rw [h1]
                  simp [capContentItemOk, httk,
                    lookupField_setFieldJs_ne fs textKey typeKey _ htyt, htype,
                    lookupField_setFieldJs_self, capStr_le_limit]
              | _ =>
                have h1 : capContentItem jc L idx (.obj fs) = .obj fs := by
                  simp [capContentItem, jsSpreadFields, htype, htext, httk]
                rw [h1]
                simp [capContentItemOk, htype, htext, httk]
          · by_cases hh : t = thinkingKey
            · subst hh
              rcases hthink : lookupField fs thinkingKey with _ | w
              · have h1 : capContentItem jc L idx (.obj fs) = .obj fs := by
                  simp [capContentItem, jsSpreadFields, htype, ht, hthink]
                rw [h1]
                simp [capContentItemOk, htype, ht, hthink]
              · cases w with
                | str s =>
                  have h1 : capContentItem jc L idx (.obj fs)
                      = .obj (setFieldJs fs thinkingKey (.str (capStr s L))) := by
                    simp [capContentItem, jsSpreadFields, htype, ht, hthink]
                  rw [h1]
                  simp [capContentItemOk, ht,
                    lookupField_setFieldJs_ne fs thinkingKey typeKey _ htyh, htype,
                    lookupField_setFieldJs_self, capStr_le_limit]
                | _ =>
                  have h1 : capContentItem jc L idx (.obj fs) = .obj fs := by
                    simp [capContentItem, jsSpreadFields, htype, ht, hthink]
                  rw [h1]
                  simp [capContentItemOk, htype, ht, hthink]
            · have h1 : capContentItem jc L idx (.obj fs) = .obj fs := by
                simp [capContentItem, jsSpreadFields, htype, ht, hh]
              rw [h1]
              simp [capContentItemOk, htype, ht, hh]
        | _ =>
          have h1 : capContentItem jc L idx (.obj fs) = .obj fs := by
            simp [capContentItem, jsSpreadFields, htype]
          rw [h1]
          simp [capContentItemOk, htype]

mutual
theorem capRespOk_cap : ∀ (resp : Json) (jc : Bool) (L : Nat),
    capRespOk (capResponseTextFields resp jc L) jc L = true
  | .null, _, _ => rfl
  | .bool _, _, _ => rfl
  | .num _, _, _ => rfl
  | .str _, _, _ => rfl
  | .arr xs, jc, L => by
      simp only [capResponseTextFields, capRespOk]
      exact capArrOk_cap xs jc L
  | .obj fs, jc, L => by
      have hc : (typeKey : JStr) ≠ contentKey := by decide
      have hw : (typeKey : JStr) ≠ citedTextKey := by decide
      have hfields := capFieldsOk_cap
        (match lookupField fs typeKey with
         | some (.str t) => decide (t = wsrlTag)
         | _ => false) fs jc L
      rcases htype : lookupField fs typeKey with _ | v
      · rw [htype] at hfields
        simp [capResponseTextFields, capRespOk, htype, lookupField_capRespFields,
          hfields]
      · rw [htype] at hfields
        cases v with
        | str t =>
            simp only [capResponseTextFields, capRespOk, htype] at hfields ⊢
            simp [lookupField_capRespFields, htype, hw, hfields, capResponseTextFields]
        | null =>
            simp only [capResponseTextFields, capRespOk, htype] at hfields ⊢
            simp [lookupField_capRespFields, htype, hfields, capResponseTextFields]
        | bool b =>
            simp only [capResponseTextFields, capRespOk, htype] at hfields ⊢
            simp [lookupField_capRespFields, htype, hfields, capResponseTextFields]
        | num q =>
            simp only [capResponseTextFields, capRespOk, htype] at hfields ⊢
            simp [lookupField_capRespFields, htype, hfields, capResponseTextFields]
        | arr items =>
            simp only [capResponseTextFields, capRespOk, htype] at hfields ⊢
            simp [lookupField_capRespFields, htype, hc, hfields,
              capResponseTextFields]
        | obj ofs =>
            simp only [capResponseTextFields, capRespOk, htype] at hfields ⊢
            simp [lookupField_capRespFields, htype, hfields, capResponseTextFields]

theorem capArrOk_cap : ∀ (xs : List Json) (jc : Bool) (L : Nat),
    capArrOk (capRespArr xs jc L) jc L = true
  | [], _, _ => rfl
  | x :: xs, jc, L => by
      simp only [capRespArr, capArrOk, Bool.and_eq_true]
      exact ⟨capRespOk_cap x jc L, capArrOk_cap xs jc L⟩

theorem capFieldsOk_cap : ∀ (wsrl : Bool) (fs : List (JStr × Json)) (jc : Bool) (L : Nat),
    capFieldsOk wsrl (capRespFields wsrl fs jc L) jc L = true
  | _, [], _, _ => rfl
  | wsrl, (k, v) :: fs, jc, L => by
      have ih := capFieldsOk_cap wsrl fs jc L
      cases v with
      | arr items =>
          by_cases hk : k = contentKey
          · subst hk
            simp [capRespFields, capFieldsOk, capContentOkList_cap 0 items jc L, ih]
          · have hso := capRespOk_cap (.arr items) jc L
            simp only [capResponseTextFields] at hso
            simp [capRespFields, capFieldsOk, hk, hso, ih, capResponseTextFields]
      | str s =>
          by_cases hk : wsrl = true ∧ k = citedTextKey
          · obtain ⟨hw2, hkk⟩ := hk
            subst hkk; subst hw2
            simp [capRespFields, capFieldsOk, capStr_le_limit, ih]
          · simp [capRespFields, capFieldsOk, hk, ih, capResponseTextFields, capRespOk]
      | null => simp [capRespFields, capFieldsOk, ih, capResponseTextFields, capRespOk]
      | bool b => simp [capRespFields, capFieldsOk, ih, capResponseTextFields, capRespOk]
      | num q => simp [capRespFields, capFieldsOk, ih, capResponseTextFields, capRespOk]
      | obj ofs =>
          have hso := capRespOk_cap (.obj ofs) jc L
          have hobj : capResponseTextFields (.obj ofs) jc L
              = .obj (capRespFields
                  (match lookupField ofs typeKey with
                   | some (.str t) => decide (t = wsrlTag)
                   | _ => false) ofs jc L) := by
            simp [capResponseTextFields]
          rw [hobj] at hso
          simp [capRespFields, capFieldsOk, hobj, hso, ih]

theorem capContentOkList_cap : ∀ (idx : Nat) (items : List Json) (jc : Bool) (L : Nat),
    capContentOkList jc L idx (capContentList jc L idx items) = true
  | _, [], _, _ => rfl
  | idx, it :: items, jc, L => by
      simp only [capContentList, capContentOkList, Bool.and_eq_true]
      exact ⟨capContentItemOk_cap jc L idx it, capContentOkList_cap (idx + 1) items jc L⟩
end

theorem stringifyFields_cons (k : JStr) (v : Json) (fs : List (JStr × Json)) :
    stringifyFields ((k, v) :: fs)
    = ('"' :: (jsEscape k ++ ['"', ':'] ++ stringify v))
      ++ (if fs.isEmpty then [] else ',' :: stringifyFields fs) := by
  cases fs <;> simp [stringifyFields]

theorem setFieldJs_ne_nil (fs : List (JStr × Json)) (k : JStr) (v : Json) :
    setFieldJs fs k v ≠ [] := by
  cases fs with
  | nil => simp [setFieldJs]
  | cons kv fs =>
    obtain ⟨k2, w⟩ := kv
    by_cases h : k2 = k <;> simp [setFieldJs, h]

theorem stringifyFields_setFieldJs_length (fs : List (JStr × Json)) (k : JStr)
    (v1 v2 : Json) (h : (stringify v1).length = (stringify v2).length) :
    (stringifyFields (setFieldJs fs k v1)).length
    = (stringifyFields (setFieldJs fs k v2)).length := by
  induction fs with
  | nil => simp [setFieldJs, stringifyFields, h]
  | cons kv fs ih =>
    obtain ⟨k2, w⟩ := kv
    by_cases hk : k2 = k
    · subst hk
      simp [setFieldJs, stringifyFields_cons, h]
    · simp [setFieldJs, hk, stringifyFields_cons,
        setFieldJs_ne_nil fs k v1, setFieldJs_ne_nil fs k v2, ih]

theorem stringify_setProp_str_length (j : Json) (k : JStr) (t1 t2 : JStr)
    (h : (jsEscape t1).length = (jsEscape t2).length) :
    (stringify (jsSetProp j k (.str t1))).length
    = (stringify (jsSetProp j k (.str t2))).length := by
  have hstr : (stringify (Json.str t1)).length = (stringify (Json.str t2)).length := by
    simp [stringify, h]
  cases j with
  | obj fs => simp [jsSetProp, stringify, stringifyFields_setFieldJs_length fs k _ _ hstr]
  | _ => rfl

theorem filter_setFieldJs_same (fs : List (JStr × Json)) (k : JStr) (v : Json) :
    (setFieldJs fs k v).filter (fun kv => !(kv.1 == k))
    = fs.filter (fun kv => !(kv.1 == k)) := by
  induction fs with
  | nil => simp [setFieldJs]
  | cons kv fs ih =>
    obtain ⟨k2, w⟩ := kv
    by_cases h : k2 = k
    · subst h
      simp [setFieldJs]
    · simp [setFieldJs, h, ih]

theorem filter_setFieldJs_ne (fs : List (JStr × Json)) (k k2 : JStr) (v : Json)
    (h : k2 ≠ k) :
    (setFieldJs fs k2 v).filter (fun kv => !(kv.1 == k))
    = setFieldJs (fs.filter (fun kv => !(kv.1 == k))) k2 v := by
  induction fs with
  | nil => simp [setFieldJs, h]
  | cons kv fs ih =>
    obtain ⟨k3, w⟩ := kv
    by_cases h3 : k3 = k2
    · subst h3
      simp [setFieldJs, h]
    · by_cases h4 : k3 = k
      · subst h4
        simp [setFieldJs, h3, ih]
      · simp [setFieldJs, h3, h4, ih]

theorem jsGetProp_setProp_ne (j : Json) (k k2 : JStr) (v : Json) (h : k2 ≠ k) :
    jsGetProp (jsSetProp j k v) k2 = jsGetProp j k2 := by
  cases j with
  | obj fs => simp [jsSetProp, jsGetProp, lookupField_setFieldJs_ne fs k k2 v h]
  | _ => rfl

theorem eraseProp_setProp_same (j : Json) (k : JStr) (v : Json) :
    eraseProp (jsSetProp j k v) k = eraseProp j k := by
  cases j with
  | obj fs => simp [jsSetProp, eraseProp, filter_setFieldJs_same]
  | _ => rfl

theorem processClaude_erase_completedAt (resp : Json) (payload : RequestPayload)
    (t1 t2 : JStr) (hlen : (jsEscape t1).length = (jsEscape t2).length) :
    eraseProp (processClaudeResponseWithSizeControl resp payload t1) completedAtKey
    = eraseProp (processClaudeResponseWithSizeControl resp payload t2) completedAtKey := by
  have hinfo : (processingInfoKey : JStr) ≠ completedAtKey := by decide
  have hcont : (contentKey : JStr) ≠ completedAtKey := by decide
  have hcost : (costKey : JStr) ≠ completedAtKey := by decide
  simp only [processClaudeResponseWithSizeControl, processedFullResponse]
  by_cases hw : optIncludeWrapper payload = true
  · simp only [hw, if_true]
    cases hr4 : jsSetProp (processBase resp payload) requestIdKey (.str payload.requestId) with
    | obj fs5 =>
        have hfin := stringify_setProp_str_length (Json.obj fs5) completedAtKey t1 t2 hlen
        rw [hfin]
        simp only [jsSetProp, eraseProp]
        rw [filter_setFieldJs_ne _ completedAtKey processingInfoKey _ hinfo,
          filter_setFieldJs_ne _ completedAtKey processingInfoKey _ hinfo,
          filter_setFieldJs_same, filter_setFieldJs_same]
    | null => simp [jsSetProp]
    | bool b => simp [jsSetProp]
    | num q => simp [jsSetProp]
    | str s => simp [jsSetProp]
    | arr xs => simp [jsSetProp]
  · simp only [Bool.not_eq_true] at hw
    simp only [hw, Bool.false_eq_true, if_false]
    have hgc := fun t => jsGetProp_setProp_ne
      (jsSetProp (processBase resp payload) requestIdKey (.str payload.requestId))
      completedAtKey contentKey (.str t) hcont
    have hgk := fun t => jsGetProp_setProp_ne
      (jsSetProp (processBase resp payload) requestIdKey (.str payload.requestId))
      completedAtKey costKey (.str t) hcost
    simp only [firstContentText, hgc, hgk, eraseProp]
    simp [List.filter_append, List.filter]

theorem jsOrEmptyStr_str (s : JStr) : jsOrEmptyStr (some (.str s)) = .str s := by
  cases s <;> simp [jsOrEmptyStr, jsTruthy]

theorem callAttempts_eq (oracle : Nat → AttemptResult) :
    callAttempts oracle = [0] ∨ callAttempts oracle = [0, 1]
    ∨ callAttempts oracle = [0, 1, 2] := by
  unfold callAttempts
  cases h0 : attemptDisposition (oracle 0) with
  | success => left; simp [attemptsFrom, h0, maxRetries]
  | terminalFail => left; simp [attemptsFrom, h0, maxRetries]
  | retryable =>
    cases h1 : attemptDisposition (oracle 1) with
    | success => right; left; simp [attemptsFrom, h0, h1, maxRetries]
    | terminalFail => right; left; simp [attemptsFrom, h0, h1, maxRetries]
    | retryable =>
      right; right
      cases h2 : attemptDisposition (oracle 2) <;>
        simp [attemptsFrom, h0, h1, h2, maxRetries]

theorem handlerRun_statusInv (j : JobRec) (oc : Outcome) (now : Nat)
    (h : statusInv j) : statusInv (handlerRun j oc now) := by
  unfold handlerRun
  by_cases hb : beginAllowed j now = true
  · rw [if_pos hb]
    cases hs : j.status with
    | completed => simp [beginAllowed, hs] at hb
    | failed => simp [beginAllowed, hs] at hb
    | queued =>
        unfold statusInv at h
        rw [hs] at h
        cases oc <;>
          simp [markProcessing, completeJob, failJob, statusInv, h.1, h.2]
    | processing =>
        unfold statusInv at h
        rw [hs] at h
        cases oc <;>
          simp [markProcessing, completeJob, failJob, statusInv, h.1, h.2]
  · rw [if_neg hb]; exact h

theorem mem_insertByCompletedDesc (j x : JobRec) (l : List JobRec) :
    x ∈ insertByCompletedDesc j l ↔ x = j ∨ x ∈ l := by
  induction l with
  | nil => simp [insertByCompletedDesc]
  | cons y l ih =>
    by_cases h : (y.completedAt.getD 0) ≤ (j.completedAt.getD 0)
    · simp [insertByCompletedDesc, h]
    · simp [insertByCompletedDesc, h, ih]
      tauto

theorem mem_sortByCompletedDesc (x : JobRec) (l : List JobRec) :
    x ∈ sortByCompletedDesc l ↔ x ∈ l := by
  induction l with
  | nil => simp [sortByCompletedDesc]
  | cons y l ih => simp [sortByCompletedDesc, mem_insertByCompletedDesc, ih]

theorem length_insertByCompletedDesc (j : JobRec) (l : List JobRec) :
    (insertByCompletedDesc j l).length = l.length + 1 := by
  induction l with
  | nil => simp [insertByCompletedDesc]
  | cons y l ih =>
    by_cases h : (y.completedAt.getD 0) ≤ (j.completedAt.getD 0)
    · simp [insertByCompletedDesc, h]
    · simp [insertByCompletedDesc, h, ih]

theorem length_sortByCompletedDesc (l : List JobRec) :
    (sortByCompletedDesc l).length = l.length := by
  induction l with
  | nil => rfl
  | cons y l ih => simp [sortByCompletedDesc, length_insertByCompletedDesc, ih]

theorem sendTimesAux_eq : ∀ (fuel n t : Nat), n ≤ fuel →
    sendTimesAux fuel t n = (List.range n).map (fun k => t + k / 5 * 1000) := by
  intro fuel
  induction fuel with
  | zero => intro n t h; interval_cases n; rfl
  | succ fuel ih =>
    intro n t h
    by_cases hn : n = 0
    · subst hn; simp [sendTimesAux]
    · rw [sendTimesAux, if_neg hn]
      by_cases h5 : n ≤ 5
      · have hsub : n - 5 = 0 := by omega
        have hmin : min 5 n = n := by omega
        rw [hsub, hmin]
        have haux : sendTimesAux fuel (t + 1000) 0 = [] := by
          cases fuel <;> simp [sendTimesAux]
        rw [haux, List.append_nil]
        symm
        rw [List.eq_replicate_iff]
        constructor
        · simp
        · intro b hb
          simp only [List.mem_map, List.mem_range] at hb
          obtain ⟨k, hk, hkb⟩ := hb
          have : k / 5 = 0 := Nat.div_eq_of_lt (by omega)
          omega
      · have hmin : min 5 n = 5 := by omega
        have hsplit : n = 5 + (n - 5) := by omega
        rw [hmin, ih (n - 5) (t + 1000) (by omega)]
        have hrep : List.replicate 5 t
            = (List.range 5).map (fun k => t + k / 5 * 1000) := by
          have h5r : List.range 5 = [0, 1, 2, 3, 4] := rfl
          rw [h5r]
          simp
        have hshift : ((List.range (n - 5)).map (fun x => 5 + x)).map
              (fun k => t + k / 5 * 1000)
            = (List.range (n - 5)).map (fun k => t + 1000 + k / 5 * 1000) := by
          rw [List.map_map]
          apply List.map_congr_left
          intro k hk
          simp only [Function.comp_apply]
          have h55 : (5 + k) / 5 = k / 5 + 1 := by
            rw [Nat.add_comm]
            exact Nat.add_div_right k (by norm_num)
          rw [h55]
          ring
        conv_rhs => rw [hsplit, List.range_add, List.map_append]
        rw [hrep, hshift]

theorem monitorSendTimes_eq (n : Nat) :
    monitorSendTimes n = (List.range n).map (fun k => k / 5 * 1000) := by
  unfold monitorSendTimes
  rw [sendTimesAux_eq n n 0 le_rfl]
  simp

/-! ## Claim theorems -/

/-- C1: the claim says begin-processing is a single atomic read-modify-write
(a conditional update), so that two concurrent triggers for the same queued
job make exactly one upstream call.  The source instead performs a plain
`select` followed by an update conditioned only on `request_id`: in the
interleaving where both invocations read the queued row before either
writes, both pass the status check, both mark the row processing, and both
call the upstream provider — two upstream calls, not one. -/
theorem procq_double_trigger_two_upstream_calls :
    (sys2Run (.ok "r1".data) (.ok "r2".data) sys2Init
      [(true, 0), (false, 0), (true, 0), (false, 0), (true, 0), (false, 0)]).upstreamCalls
    = 2 := by decide

/-- C2 (counterexample): the result/error nullness invariant is not
preserved by every reachable execution.  If invocation A marks a job
processing, stalls past the 20-minute stuck threshold while invocation B
resets and completes the job (writing `response_payload`), and A's upstream
call then fails, A's catch-block failure update (which does not clear
`response_payload`) leaves the row `failed` with result and error both
non-null. -/
theorem procq_race_breaks_result_error_invariant :
    ((sys2Run (.err "boom".data) (.ok "res".data) sys2Init
        [(true, 0), (true, 0),
         (false, 1300000), (false, 1300000), (false, 1300000), (false, 1300000),
         (true, 1300001), (true, 1300001)]).job.status = JStatus.failed)
    ∧ ((sys2Run (.err "boom".data) (.ok "res".data) sys2Init
        [(true, 0), (true, 0),
         (false, 1300000), (false, 1300000), (false, 1300000), (false, 1300000),
         (true, 1300001), (true, 1300001)]).job.result = some "res".data)
    ∧ ((sys2Run (.err "boom".data) (.ok "res".data) sys2Init
        [(true, 0), (true, 0),
         (false, 1300000), (false, 1300000), (false, 1300000), (false, 1300000),
         (true, 1300001), (true, 1300001)]).job.error = some "boom".data)
    ∧ ¬ statusInv (sys2Run (.err "boom".data) (.ok "res".data) sys2Init
        [(true, 0), (true, 0),
         (false, 1300000), (false, 1300000), (false, 1300000), (false, 1300000),
         (true, 1300001), (true, 1300001)]).job := by decide

/-- C2 (amended): under non-overlapping executions the invariant holds:
the inserted row satisfies it, and one complete trigger-handler run
(status check, processing update, upstream call, terminal update) preserves
it for every outcome. -/
theorem procq_sequential_invariant :
    statusInv insertJob
    ∧ ∀ (j : JobRec) (oc : Outcome) (now : Nat),
        statusInv j → statusInv (handlerRun j oc now) :=
  ⟨by decide, fun j oc now h => handlerRun_statusInv j oc now h⟩

/-- Witness for the amended C2 theorem at a concrete run. -/
theorem procq_sequential_invariant_witness :
    statusInv (handlerRun insertJob (.ok "r".data) 5) :=
  procq_sequential_invariant.2 insertJob (.ok "r".data) 5 (by decide)

/-- C3: a status lookup of a completed, unfetched job returns its result
and marks `fetched_at` as a side effect; once set, `fetched_at` is never
changed by any modelled operation (lookup, trigger handler, webhook
retry).  The `fetched_at`-marking status endpoint is modelled from the
spec (see `statusLookup`): the source tree contains only pre-marking
versions of `request-status.js`. -/
theorem status_lookup_marks_fetched_at :
    ∀ (j : JobRec) (now : Nat),
      (j.status = .completed → j.fetchedAt = none →
        (statusLookup j now).1.fetchedAt = some now
        ∧ (statusLookup j now).2 = j.result)
      ∧ (∀ t, j.fetchedAt = some t → (statusLookup j now).1.fetchedAt = some t)
      ∧ (∀ oc, (handlerRun j oc now).fetchedAt = j.fetchedAt)
      ∧ (retryWebhook j now).1.fetchedAt = j.fetchedAt := by
  intro j now
  refine ⟨fun hc hf => ?_, fun t ht => ?_, fun oc => ?_, ?_⟩
  · simp [statusLookup, hc, hf]
  · simp [statusLookup, ht]
  · unfold handlerRun
    by_cases hb : beginAllowed j now = true
    · rw [if_pos hb]
      cases oc <;> simp [markProcessing, completeJob, failJob]
    · rw [if_neg hb]
  · simp [retryWebhook]

/-- Witness for C3 at a concrete completed, unfetched row. -/
theorem status_lookup_marks_fetched_at_witness :
    (statusLookup (mkMonJob 0) 7).1.fetchedAt = some 7
    ∧ (statusLookup (mkMonJob 0) 7).2 = (mkMonJob 0).result :=
  (status_lookup_marks_fetched_at (mkMonJob 0) 7).1 (by decide) (by decide)

/-- C4 (counterexample): the claim says an attempt is retried iff its HTTP
status is 429 or 5xx (or a timeout/transport error).  The source retries
every non-2xx status that is not a non-429 4xx, so a 304 response is
retried even though it is neither 429 nor 5xx. -/
theorem retry_claim_fails_at_304 :
    shouldRetry (.http 304) = true
    ∧ ¬(304 = 429 ∨ (500 ≤ 304 ∧ 304 ≤ 599)) := by decide

/-- C4 (amended): the worker makes at most 3 attempts; the backoff delays
awaited are 1s then 2s (each ≤ the 5s cap); a 4xx status other than 429 on
the first attempt ends the call after exactly that attempt; and an attempt
outcome is retryable iff it is a timeout, a fetch TypeError, or an HTTP
status that is neither a success (2xx) nor a 4xx other than 429 — in
particular 429 and all 5xx are retryable, but so are other non-2xx
statuses such as 3xx. -/
theorem callClaudeAPI_retry_policy :
    ∀ oracle : Nat → AttemptResult,
      (callAttempts oracle).length ≤ 3
      ∧ (callDelays oracle = [] ∨ callDelays oracle = [1000]
          ∨ callDelays oracle = [1000, 2000])
      ∧ (∀ d ∈ callDelays oracle, d ≤ 5000)
      ∧ (∀ s, 400 ≤ s → s < 500 → s ≠ 429 → oracle 0 = .http s →
          callAttempts oracle = [0])
      ∧ (∀ r, shouldRetry r = true ↔
          (r = .abortErr ∨ r = .typeFetchErr
            ∨ ∃ s, r = .http s ∧ ¬(200 ≤ s ∧ s < 300)
                ∧ ¬(400 ≤ s ∧ s < 500 ∧ s ≠ 429))) := by
  intro oracle
  refine ⟨?_, ?_, ?_, ?_, ?_⟩
  · rcases callAttempts_eq oracle with h | h | h <;> rw [h] <;> decide
  · unfold callDelays
    rcases callAttempts_eq oracle with h | h | h <;> rw [h]
    · left; rfl
    · right; left; rfl
    · right; right; rfl
  · unfold callDelays
    rcases callAttempts_eq oracle with h | h | h <;> rw [h] <;> decide
  · intro s h4 h5 h429 hor
    have hd : attemptDisposition (AttemptResult.http s) = .terminalFail := by
      simp only [attemptDisposition]
      rw [if_neg (by omega), if_pos ⟨h4, h5, h429⟩]
    unfold callAttempts
    simp [attemptsFrom, hor, hd, maxRetries]
  · intro r
    cases r with
    | http s =>
        unfold shouldRetry attemptDisposition
        by_cases h1 : 200 ≤ s ∧ s < 300
        · simp [h1]
        · by_cases h2 : 400 ≤ s ∧ s < 500 ∧ s ≠ 429
          · simp [h1, h2]
          · simp [h1, h2]
            omega
    | abortErr => simp [shouldRetry, attemptDisposition]
    | typeFetchErr => simp [shouldRetry, attemptDisposition]
    | otherErr => simp [shouldRetry, attemptDisposition]

/-- Witness for the amended C4 theorem: a 404 on the first attempt ends the
call after exactly one attempt. -/
theorem callClaudeAPI_retry_policy_witness :
    callAttempts (fun _ => .http 404) = [0] :=
  ((callClaudeAPI_retry_policy (fun _ => .http 404)).2.2.2.1) 404
    (by decide) (by decide) (by decide) rfl

/-- C5 (counterexample): the claim says every capped string has a
truncation marker appended so callers can detect loss.  `capStr` returns
the bare 45,000-unit prefix: capping a 45,001-character string produces
output identical to an uncapped 45,000-character string, so nothing is
appended and loss is undetectable from the output. -/
theorem capStr_appends_no_marker :
    45000 < (List.replicate 45001 'a' : JStr).length
    ∧ capStr (List.replicate 45001 'a') 45000 = List.replicate 45000 'a'
    ∧ capStr (List.replicate 45000 'a') 45000 = List.replicate 45000 'a' := by
  have h1 : 45000 < (List.replicate 45001 'a' : JStr).length := by
    rw [List.length_replicate]
    norm_num
  have h2 : ¬45000 < (List.replicate 45000 'a' : JStr).length := by
    rw [List.length_replicate]
    norm_num
  refine ⟨h1, ?_, ?_⟩
  · unfold capStr
    rw [if_pos h1, List.take_replicate]
    norm_num
  · unfold capStr
    rw [if_neg h2]

/-- C5 (amended): after `capResponseTextFields`, every field the cap step
designates — `content[].text` (except `content[0]` in jsonContent mode),
`content[].thinking`, and `cited_text` directly inside a
`web_search_result_location` object — has length at most the fixed
45,000-character cap; a string over the cap is truncated to exactly its
45,000-unit prefix with no marker appended. -/
theorem capResponseTextFields_bounded :
    (∀ (resp : Json) (jc : Bool),
      capRespOk (capResponseTextFields resp jc textCapLimit) jc textCapLimit = true)
    ∧ (∀ s : JStr, textCapLimit < s.length →
        capStr s textCapLimit = s.take textCapLimit) :=
  ⟨fun resp jc => capRespOk_cap resp jc textCapLimit,
   fun s h => by unfold capStr; rw [if_pos h]⟩

/-- Witness for the amended C5 theorem at a concrete over-cap string. -/
theorem capResponseTextFields_bounded_witness :
    capStr (List.replicate 45001 'b') textCapLimit
    = (List.replicate 45001 'b' : JStr).take textCapLimit :=
  capResponseTextFields_bounded.2 _ (by norm_num [textCapLimit])

/-- C6 (counterexample): the claim says the sweep selects exactly the jobs
passing the filter.  The query carries `limit(50)`: with 51 eligible rows
the oldest eligible row passes the filter but is not selected. -/
theorem monitorSelect_misses_51st_job :
    monitorPred 2000000 (mkMonJob 0) = true
    ∧ mkMonJob 0 ∈ monJobs51
    ∧ mkMonJob 0 ∉ monitorSelect monJobs51 2000000 := by decide

/-- C6 (amended): the sweep selects only rows with status completed,
`fetched_at` null, `completed_at` between 2 and 30 minutes old, and fewer
than 3 webhook retries; when at most 50 rows match, it selects exactly the
matching rows (newest first, capped at 50 per run); each retry first
increments the retry count and stamps the last-retry time, and the push
body carries the incremented count. -/
theorem webhookMonitor_selection :
    ∀ (jobs : List JobRec) (now : Nat),
      (∀ j ∈ monitorSelect jobs now, monitorPred now j = true)
      ∧ ((jobs.filter (monitorPred now)).length ≤ 50 →
          ∀ j ∈ jobs, monitorPred now j = true → j ∈ monitorSelect jobs now)
      ∧ (∀ (j : JobRec) (t : Nat),
          (retryWebhook j t).1.webhookRetryCount = j.webhookRetryCount + 1
          ∧ (retryWebhook j t).1.lastWebhookRetryAt = some t
          ∧ (retryWebhook j t).2.retryCount = j.webhookRetryCount + 1
          ∧ (retryWebhook j t).2.isRetry = true) := by
  intro jobs now
  refine ⟨?_, ?_, ?_⟩
  · intro j hj
    have h1 : j ∈ sortByCompletedDesc (jobs.filter (monitorPred now)) :=
      List.mem_of_mem_take hj
    have h2 : j ∈ jobs.filter (monitorPred now) :=
      (mem_sortByCompletedDesc _ _).mp h1
    exact (List.mem_filter.mp h2).2
  · intro hlen j hj hp
    have hsl : (sortByCompletedDesc (jobs.filter (monitorPred now))).length ≤ 50 := by
      rw [length_sortByCompletedDesc]; exact hlen
    unfold monitorSelect
    rw [List.take_of_length_le hsl]
    exact (mem_sortByCompletedDesc _ _).mpr (List.mem_filter.mpr ⟨hj, hp⟩)
  · intro j t
    simp [retryWebhook]

/-- Witness for the amended C6 theorem: a single eligible row is selected. -/
theorem webhookMonitor_selection_witness :
    mkMonJob 3 ∈ monitorSelect [mkMonJob 3] 2000000 :=
  (webhookMonitor_selection [mkMonJob 3] 2000000).2.1 (by decide)
    (mkMonJob 3) (by decide) (by decide)

/-- C7 (counterexample): the claim says the deliverer never sends more than
one push per 10 seconds, blocking until the window clears.  The monitor
pushes batches of up to 5 in parallel: with two selected jobs both pushes
go out at the same instant, so two pushes fall inside one 10-second
window. -/
theorem monitor_pushes_violate_rate_limit :
    monitorSendTimes 2 = [0, 0]
    ∧ ¬ List.Pairwise (fun a b => a + 10000 ≤ b) (monitorSendTimes 2) := by decide

/-- C7 (amended): the monitor's push schedule sends job `k` at time
`(k / 5) * 1000` — parallel batches of at most 5 with a 1-second await
between consecutive batches — and every selected job is sent (delayed, not
dropped); no one-push-per-10-seconds limit exists anywhere in the send
path. -/
theorem monitorSendTimes_schedule :
    ∀ n : Nat,
      monitorSendTimes n = (List.range n).map (fun k => k / 5 * 1000)
      ∧ (monitorSendTimes n).length = n :=
  fun n => ⟨monitorSendTimes_eq n, by rw [monitorSendTimes_eq n]; simp⟩

/-- C8 (counterexample): the claim says two runs of the normalizer on the
same raw response and options produce identical values of every field.
The normalizer stamps `completedAt` from the wall clock, so two runs at
different instants differ. -/
theorem processClaude_differs_across_clock_readings :
    processClaudeResponseWithSizeControl (.obj [])
      { responseOptions := none, modelPricing := none,
        requestId := "id1".data, claudeRequestModel := none } "A".data
    ≠ processClaudeResponseWithSizeControl (.obj [])
      { responseOptions := none, modelPricing := none,
        requestId := "id1".data, claudeRequestModel := none } "B".data := by decide

/-- C8 (amended): the normalizer is deterministic given the same raw
response, the same options, and the same clock reading; across different
clock readings of equal rendered length (ISO timestamps are fixed-width),
the outputs — citation numbering, Sources text, and every other field —
agree except for the `completedAt` stamp itself. -/
theorem processClaude_deterministic_modulo_completedAt :
    ∀ (resp : Json) (payload : RequestPayload) (t1 t2 : JStr),
      (jsEscape t1).length = (jsEscape t2).length →
      eraseProp (processClaudeResponseWithSizeControl resp payload t1) completedAtKey
      = eraseProp (processClaudeResponseWithSizeControl resp payload t2) completedAtKey :=
  processClaude_erase_completedAt

/-- Witness for the amended C8 theorem at two concrete clock readings. -/
theorem processClaude_deterministic_modulo_completedAt_witness :
    eraseProp (processClaudeResponseWithSizeControl (.obj [])
      { responseOptions := none, modelPricing := none,
        requestId := "id1".data, claudeRequestModel := none } "AA".data) completedAtKey
    = eraseProp (processClaudeResponseWithSizeControl (.obj [])
      { responseOptions := none, modelPricing := none,
        requestId := "id1".data, claudeRequestModel := none } "BB".data) completedAtKey :=
  processClaude_deterministic_modulo_completedAt _ _ _ _ (by decide)

/-- C9: the text-capping transform is idempotent — applying
`capResponseTextFields` twice with the same options equals applying it
once, because a string already at or below the limit is returned
unchanged. -/
theorem capResponseTextFields_idempotent :
    ∀ (resp : Json) (jc : Bool) (limit : Nat),
      capResponseTextFields (capResponseTextFields resp jc limit) jc limit
      = capResponseTextFields resp jc limit := capResp_idem

/-- C10: when the submission did not request the full wrapper, the
simplified output's `content` field equals the text of the first content
block of the processed response, and equals the empty string when the
content chain yields nothing (content absent, or the first block carries
no text field — e.g. a thinking block). -/
theorem simplified_content_field :
    ∀ (resp : Json) (payload : RequestPayload) (now : JStr),
      optIncludeWrapper payload = false →
      (∀ s : JStr,
        firstContentText (processedFullResponse resp payload now) = some (.str s) →
        jsGetProp (processClaudeResponseWithSizeControl resp payload now) contentKey
        = some (.str s))
      ∧ (firstContentText (processedFullResponse resp payload now) = none →
        jsGetProp (processClaudeResponseWithSizeControl resp payload now) contentKey
        = some (.str [])) := by
  intro resp payload now hw
  constructor
  · intro s hs
    simp only [processClaudeResponseWithSizeControl, hw, Bool.false_eq_true, if_false]
    simp [jsGetProp, lookupField, hs, jsOrEmptyStr_str]
  · intro hs
    simp only [processClaudeResponseWithSizeControl, hw, Bool.false_eq_true, if_false]
    simp [jsGetProp, lookupField, hs, jsOrEmptyStr]

/-- Witness for C10 at a concrete response whose first content block holds
the text `hi`. -/
theorem simplified_content_field_witness :
    jsGetProp (processClaudeResponseWithSizeControl
      (.obj [(contentKey, .arr [.obj [(typeKey, .str "text".data),
        (textKey, .str "hi".data)]])])
      { responseOptions := none, modelPricing := none,
        requestId := "id2".data, claudeRequestModel := none } "T".data) contentKey
    = some (.str "hi".data) :=
  (simplified_content_field
    (.obj [(contentKey, .arr [.obj [(typeKey, .str "text".data),
      (textKey, .str "hi".data)]])])
    { responseOptions := none, modelPricing := none,
      requestId := "id2".data, claudeRequestModel := none } "T".data
    (by decide)).1 "hi".data (by decide)
